import Mathlib

/-!
Verification of the Teleport Windows desktop access service
(`lib/srv/desktop/windows_server.go`).

This file gives a shallow embedding of the parts of the service that the
specification talks about:

* the distinguished-name construction `crlDN`;
* the hand-built ASN.1 / DER encoders for the Extended Key Usage and
  Subject Alternative Name certificate extensions, together with
  independent DER decoders used to check them;
* the CRL upsert protocol `updateCRL` over an abstract LDAP client, plus a
  concrete directory model used to state idempotence;
* the per-connection handling flow `handleConnection` together with a
  per-IP connection limiter (the limiter implementation lives in
  `lib/limiter`, outside the sources at hand, and is modelled from the
  spec);
* credential issuance `generateCredentials` over an oracle environment for
  the external collaborators (RSA key generation, CSR signing, cluster
  name lookup, certificate authority), with a byte-level PEM/base64 model
  for the response decoding step;
* the heartbeat descriptor generators and static-host naming;
* a small data-flow model of the cancellation-context wiring used by
  `Close` and the per-connection tasks.

Go byte slices are modelled as `List Nat` (each element a byte value) and
Go strings as Lean `String`; `strBytes` maps a string to its bytes (the
strings involved are ASCII). Machine integers do not overflow in any of
the modelled code paths, so `Nat` is used throughout.
-/

namespace WindowsDesktop

/-! ## Byte-level helpers -/

/-- Bytes of an ASCII string (model of the Go string-to-byte conversion). -/
def strBytes (s : String) : List Nat := s.data.map Char.toNat

/-! ## DER primitives

Model of the DER output of Go `encoding/asn1` for the specific shapes this
program marshals: object identifiers, sequences, implicitly tagged
structures and UTF-8 strings. -/

/-- Little-endian base-256 digits of `n`, at least one digit. The first
argument is recursion fuel; when it runs out the remaining value is kept
in a single digit so that the digits always evaluate back to `n`. Called
with fuel `≥ n`, which makes the fallback unreachable. -/
def leDigits256 : Nat → Nat → List Nat
  | 0, n => [n]
  | fuel + 1, n => if n < 256 then [n] else n % 256 :: leDigits256 fuel (n / 256)

/-- Value of a little-endian digit list in base 256. -/
def ofLE256 : List Nat → Nat
  | [] => 0
  | d :: ds => d + 256 * ofLE256 ds

/-- Value of a big-endian digit list in base 256. -/
def ofBE256 (l : List Nat) : Nat := l.foldl (fun a d => 256 * a + d) 0

/-- DER definite-length encoding of a length `n`: short form below 128,
long form (length-of-length byte then big-endian digits) otherwise. -/
def derLen (n : Nat) : List Nat :=
  if n < 128 then [n]
  else
    let ds := (leDigits256 n n).reverse
    (128 + ds.length) :: ds

/-- Decode a DER length; returns the length and the remaining bytes. -/
def decodeLen : List Nat → Option (Nat × List Nat)
  | [] => none
  | b :: rest =>
    if b < 128 then some (b, rest)
    else
      let k := b - 128
      if rest.length < k then none
      else some (ofBE256 (rest.take k), rest.drop k)

/-- A DER TLV: tag byte, definite length, content. -/
def derTLV (tag : Nat) (content : List Nat) : List Nat :=
  tag :: (derLen content.length ++ content)

/-- Decode one TLV with the expected tag byte; returns the content and the
remaining bytes. -/
def decodeTLV (tag : Nat) : List Nat → Option (List Nat × List Nat)
  | [] => none
  | t :: rest =>
    if t = tag then
      match decodeLen rest with
      | some (n, rest2) =>
          if n ≤ rest2.length then some (rest2.take n, rest2.drop n) else none
      | none => none
    else none

/-- Little-endian base-128 digits of `n`, at least one digit, fuel-driven
like `leDigits256`. -/
def leDigits128 : Nat → Nat → List Nat
  | 0, n => [n]
  | fuel + 1, n => if n < 128 then [n] else n % 128 :: leDigits128 fuel (n / 128)

/-- Set the continuation bit (0x80) on every digit except the last of a
big-endian digit list. -/
def markHigh : List Nat → List Nat
  | [] => []
  | [d] => [d]
  | d :: rest => (d + 128) :: markHigh rest

/-- Base-128 encoding of one OID arc, high bit set on all but the final
byte (model of the Go `encoding/asn1` OID arc encoder). -/
def arcBytes (n : Nat) : List Nat := markHigh (leDigits128 (n + 1) n).reverse

/-- DER content bytes of an object identifier: the first two arcs are
packed into `40*a + b`, remaining arcs are base-128 encoded. -/
def oidContent : List Nat → List Nat
  | [] => []
  | [a] => arcBytes (40 * a)
  | a :: b :: rest => arcBytes (40 * a + b) ++ rest.flatMap arcBytes

/-- Full DER encoding of an object identifier (tag 0x06). -/
def encodeOIDDER (oid : List Nat) : List Nat := derTLV 6 (oidContent oid)

/-- Model of Go `asn1.Marshal` on a `[]asn1.ObjectIdentifier`: a DER
SEQUENCE (tag 0x30) of OID TLVs. -/
def asn1MarshalOIDs (oids : List (List Nat)) : List Nat :=
  derTLV 48 ((oids.map encodeOIDDER).flatten)

/-- Accumulating base-128 arc decoder: `acc` holds finished arcs, `cur`
the partial arc. Fails on a dangling continuation byte. -/
def decodeArcsGo (acc : List Nat) (cur : Nat) : List Nat → Option (List Nat)
  | [] => none
  | [b] => if b < 128 then some (acc ++ [cur * 128 + b]) else none
  | b :: rest =>
    if b < 128 then decodeArcsGo (acc ++ [cur * 128 + b]) 0 rest
    else decodeArcsGo acc (cur * 128 + (b - 128)) rest

/-- Decode DER OID content bytes back into the arc list, splitting the
leading packed arc into its two components. -/
def decodeOIDArcs (content : List Nat) : Option (List Nat) :=
  match decodeArcsGo [] 0 content with
  | some (v :: rest) => some (v / 40 :: v % 40 :: rest)
  | _ => none

/-- Decode a run of consecutive OID TLVs; the fuel is bounded by the byte
count. -/
def decodeOIDRun : Nat → List Nat → Option (List (List Nat))
  | _, [] => some []
  | 0, _ :: _ => none
  | fuel + 1, bytes =>
    match decodeTLV 6 bytes with
    | some (content, rest) =>
      match decodeOIDArcs content, decodeOIDRun fuel rest with
      | some oid, some oids => some (oid :: oids)
      | _, _ => none
    | none => none

/-- Decode the DER encoding of a SEQUENCE OF OBJECT IDENTIFIER, requiring
that the sequence spans the whole input. -/
def decodeOIDSequence (bytes : List Nat) : Option (List (List Nat)) :=
  match decodeTLV 48 bytes with
  | some (inner, []) => decodeOIDRun inner.length inner
  | _ => none

/-! ## The certificate extensions (`extKeyUsageExtension`,
`subjectAltNameExtension`) -/

/-- Model of Go `pkix.Extension`: an OID (field `Id`) and raw DER value
bytes (field `Value`). -/
structure PkixExtension where
  oid : List Nat
  value : List Nat
deriving DecidableEq, Repr

/-- Client Authentication OID, as written in the source. -/
def clientAuthOID : List Nat := [1, 3, 6, 1, 5, 5, 7, 3, 2]

/-- Smartcard Logon OID, as written in the source. -/
def smartcardLogonOID : List Nat := [1, 3, 6, 1, 4, 1, 311, 20, 2, 2]

/-- User Principal Name OID, as written in the source. -/
def upnOID : List Nat := [1, 3, 6, 1, 4, 1, 311, 20, 2, 3]

/-- `extKeyUsageExtension` from the source: the Extended Key Usage OID
2.5.29.37 with the marshalled sequence of the Client Authentication and
Smartcard Logon OIDs, in that order. -/
def extKeyUsageExtension : PkixExtension :=
  { oid := [2, 5, 29, 37]
    value := asn1MarshalOIDs [clientAuthOID, smartcardLogonOID] }

/-- DER bytes produced by Go `asn1.Marshal` on the nested
`subjectAltName` / `otherName` / `upn` structures of the source: a
SEQUENCE holding one implicitly tagged ([0], constructed) otherName, which
holds the UPN OID and an implicitly tagged ([0]) wrapper around the UTF-8
string (tag 0x0C) carrying the principal bytes. -/
def sanValueBytes (upnBytes : List Nat) : List Nat :=
  derTLV 48 (derTLV 160 (encodeOIDDER upnOID ++ derTLV 160 (derTLV 12 upnBytes)))

/-- `subjectAltNameExtension` from the source, at the byte level: OID
2.5.29.17 and the marshalled otherName SAN for `user@domain`. The byte
0x40 is the at sign inserted by the `fmt.Sprintf` call. -/
def subjectAltNameExtension (user domain : List Nat) : PkixExtension :=
  { oid := [2, 5, 29, 17]
    value := sanValueBytes (user ++ [64] ++ domain) }

/-- Decode the SAN extension value: expects exactly one otherName inside
the SEQUENCE and returns its OID arcs and the UTF-8 value bytes. -/
def decodeSAN (bytes : List Nat) : Option (List Nat × List Nat) :=
  match decodeTLV 48 bytes with
  | some (inner, []) =>
    match decodeTLV 160 inner with
    | some (other, []) =>
      match decodeTLV 6 other with
      | some (oidC, rest3) =>
        match decodeTLV 160 rest3 with
        | some (wrapped, []) =>
          match decodeTLV 12 wrapped with
          | some (s, []) =>
            match decodeOIDArcs oidC with
            | some arcs => some (arcs, s)
            | none => none
          | _ => none
        | _ => none
      | none => none
    | _ => none
  | _ => none

/-! ## Distinguished-name construction (`crlDN`) -/

/-- Split a character list at the dot character; model of Go
`strings.Split(domain, ".")`. -/
def splitDot : List Char → List (List Char)
  | [] => [[]]
  | c :: rest =>
    if c = '.' then [] :: splitDot rest
    else
      match splitDot rest with
      | [] => [[c]]
      | p :: ps => (c :: p) :: ps

/-- Dot-separated components of a domain string. -/
def splitDomain (domain : String) : List String :=
  (splitDot domain.data).map String.mk

/-- `crlDN` from the source, as a pure function of the cluster name and
the domain (in the source the cluster name is fetched from the access
point; that lookup is modelled separately by its callers). Returns the
entry DN and the parent container DN, in source order. -/
def crlDN (clusterName domain : String) : String × String :=
  let domainParts := splitDomain domain
  let parentDN := domainParts.foldl
    (fun acc dc => acc ++ ",DC=" ++ dc)
    "CN=Teleport,CN=CDP,CN=Public Key Services,CN=Services,CN=Configuration"
  ("CN=" ++ clusterName ++ "," ++ parentDN, parentDN)

/-- Parent DN as described by the spec: the fixed container path followed
by one `,DC=<component>` per dot-separated domain component, in order. -/
def parentDNSpec (domain : String) : String :=
  "CN=Teleport,CN=CDP,CN=Public Key Services,CN=Services,CN=Configuration" ++
    (splitDomain domain).foldr (fun dc acc => ",DC=" ++ dc ++ acc) ""

/-- Entry DN as described by the spec: `CN=<clusterName>,` prepended to
the parent DN. -/
def crlDNSpec (clusterName domain : String) : String :=
  "CN=" ++ clusterName ++ "," ++ parentDNSpec domain

/-! ## LDAP model and the CRL upsert (`updateCRL`) -/

/-- LDAP error signal distinguished by `updateCRL`: the directory's
"entry already exists" result code versus any other error (carrying its
numeric result code). -/
inductive LdapErr where
  | alreadyExists
  | other (code : Nat)
deriving DecidableEq, Repr

/-- Abstract LDAP client over a directory state `σ`: the add-entry and
modify-entry (replace attributes) operations used by `updateCRL`. The
directory service is an external collaborator; `ldapDirClient` below is a
concrete instance. -/
structure LdapClient (σ : Type) where
  add : σ → String → List (String × List String) → Except LdapErr σ
  modify : σ → String → List (String × List String) → Except LdapErr σ

/-- Outcomes of the steps `updateCRL` performs before talking to the
directory: the CRL fetch (`GenerateCertAuthorityCRL`), the cluster-name
lookup done inside `crlDN`, and the LDAP connect/bind. The CRL payload is
a string, as the source converts the DER bytes with `string(crlDER)`. -/
structure CRLUpdateEnv where
  generateCRL : Except LdapErr String
  clusterName : Except LdapErr String
  connectResult : Except LdapErr Unit

/-- The add-or-modify step of `updateCRL` on the CRL entry itself: try to
add the entry with its two attributes; if the add fails with
"already exists", issue a replace-attribute modify of
`certificateRevocationList`; propagate any other error. (The source wraps
the modify error check in a redundant second `if err != nil`, which
changes nothing.) -/
def addCRLEntry {σ : Type} (c : LdapClient σ) (st : σ) (dn : String)
    (crl : String) : Except LdapErr σ :=
  match c.add st dn
      [("objectClass", ["cRLDistributionPoint"]),
       ("certificateRevocationList", [crl])] with
  | .ok st2 => .ok st2
  | .error .alreadyExists =>
    match c.modify st dn [("certificateRevocationList", [crl])] with
    | .ok st2 => .ok st2
    | .error e => .error e
  | .error e => .error e

/-- `updateCRL` from the source: fetch the CRL, compute the DNs, connect,
create the parent container ignoring only "already exists", then add or
replace the CRL entry. -/
def updateCRL {σ : Type} (env : CRLUpdateEnv) (c : LdapClient σ) (st : σ)
    (ldapDomain : String) : Except LdapErr σ :=
  match env.generateCRL with
  | .error e => .error e
  | .ok crl =>
    match env.clusterName with
    | .error e => .error e
    | .ok cn =>
      let dns := crlDN cn ldapDomain
      match env.connectResult with
      | .error e => .error e
      | .ok _ =>
        match c.add st dns.2 [("objectClass", ["container"])] with
        | .ok st1 => addCRLEntry c st1 dns.1 crl
        | .error .alreadyExists => addCRLEntry c st dns.1 crl
        | .error e => .error e

/-- Concrete directory state: a list of entries, each a DN with its
attribute list. -/
abbrev Dir : Type := List (String × List (String × List String))

/-- Does the directory hold an entry at `dn`. -/
def dirHas (d : Dir) (dn : String) : Bool := d.any (fun e => e.1 == dn)

/-- Directory add: fails with `alreadyExists` when an entry at `dn` is
present, otherwise appends the new entry. -/
def dirAdd (d : Dir) (dn : String) (attrs : List (String × List String)) :
    Except LdapErr Dir :=
  if dirHas d dn then .error .alreadyExists else .ok (d ++ [(dn, attrs)])

/-- Replace the values of one attribute, adding the attribute when it is
absent (LDAP replace semantics). -/
def replaceAttr (attrs : List (String × List String)) (name : String)
    (vals : List String) : List (String × List String) :=
  if attrs.any (fun a => a.1 == name) then
    attrs.map (fun a => if a.1 == name then (a.1, vals) else a)
  else attrs ++ [(name, vals)]

/-- Directory modify: fails with the noSuchObject result code (32) when
the entry is absent, otherwise applies all attribute replacements. -/
def dirModify (d : Dir) (dn : String) (repls : List (String × List String)) :
    Except LdapErr Dir :=
  if dirHas d dn then
    .ok (d.map (fun e =>
      if e.1 == dn then
        (e.1, repls.foldl (fun as r => replaceAttr as r.1 r.2) e.2)
      else e))
  else .error (.other 32)

/-- The concrete directory as an LDAP client. -/
def ldapDirClient : LdapClient Dir := ⟨dirAdd, dirModify⟩

/-- `updateCRL` run against the concrete directory with all preliminary
steps succeeding. -/
def updateCRLDir (d : Dir) (cn ldapDomain crl : String) : Except LdapErr Dir :=
  updateCRL ⟨.ok crl, .ok cn, .ok ()⟩ ldapDirClient d ldapDomain

/-- The entries of the directory sitting at `dn`. -/
def entriesAt (d : Dir) (dn : String) : Dir := d.filter (fun e => e.1 == dn)

/-- The values stored under one attribute of an attribute list. -/
def attrVals (attrs : List (String × List String)) (name : String) :
    Option (List String) :=
  (attrs.find? (fun a => a.1 == name)).map (fun a => a.2)

/-- The CRL bytes stored at `dn`, defined only when exactly one entry
sits there. -/
def crlAttrAt (d : Dir) (dn : String) : Option (List String) :=
  match entriesAt d dn with
  | [e] => attrVals e.2 "certificateRevocationList"
  | _ => none

/-! ## Per-IP connection limiter and `handleConnection` -/

/-- Per-IP connection counts of the limiter. -/
abbrev LimiterCounts : Type := List (String × Nat)

/-- Current count for one IP (0 when absent). -/
def getCount (l : LimiterCounts) (ip : String) : Nat :=
  match l.find? (fun p => p.1 == ip) with
  | some p => p.2
  | none => 0

/-- Replace the count of `ip` (appending when absent). -/
def setCount : LimiterCounts → String → Nat → LimiterCounts
  | [], ip, n => [(ip, n)]
  | (k, v) :: rest, ip, n =>
    if k == ip then (k, n) :: rest else (k, v) :: setCount rest ip n

/-- Modelled from the spec: `limiter.ConnectionsLimiter.AcquireConnection`
(the limiter lives in `lib/limiter`, outside the sources at hand). An IP
already holding `maxConnections` slots is rejected and no state changes;
otherwise its count is incremented. -/
def acquireConnection (maxConnections : Nat) (l : LimiterCounts)
    (ip : String) : Option LimiterCounts :=
  if maxConnections ≤ getCount l ip then none
  else some (setCount l ip (getCount l ip + 1))

/-- Modelled from the spec: `limiter.ConnectionsLimiter.ReleaseConnection`
decrements the count of `ip`. -/
def releaseConnection (l : LimiterCounts) (ip : String) : LimiterCounts :=
  setCount l ip (getCount l ip - 1)

/-- Terminal outcome of `handleConnection`, one constructor per exit
path of the source function. -/
inductive HandleResult where
  | parseError
  | limitRejected
  | tlsAssertFailed
  | authFailed
  | lookupFailed
  | bridgeFailed
  | success
deriving DecidableEq, Repr

/-- Outcomes of the external steps of one connection: the remote-address
parse (`net.SplitHostPort`), the TLS type assertion, the mTLS
authentication (`WrapContextWithUser`), the desktop lookup
(`GetWindowsDesktop`), and the RDP bridge (`connectRDP`). -/
structure ConnEnv where
  remoteIP : Option String
  isTLSConn : Bool
  authOK : Bool
  lookupOK : Bool
  bridgeOK : Bool

/-- `handleConnection` from the source, as a function from the step
outcomes and the limiter state to the final limiter state and exit path.
The deferred `ReleaseConnection` runs on every path that follows a
successful acquire. -/
def handleConnection (env : ConnEnv) (maxConnections : Nat)
    (lim : LimiterCounts) : LimiterCounts × HandleResult :=
  match env.remoteIP with
  | none => (lim, .parseError)
  | some ip =>
    match acquireConnection maxConnections lim ip with
    | none => (lim, .limitRejected)
    | some lim2 =>
      let res :=
        if ¬env.isTLSConn then HandleResult.tlsAssertFailed
        else if ¬env.authOK then HandleResult.authFailed
        else if ¬env.lookupOK then HandleResult.lookupFailed
        else if ¬env.bridgeOK then HandleResult.bridgeFailed
        else HandleResult.success
      (releaseConnection lim2 ip, res)

/-! ## Base64 and PEM (models of Go `encoding/base64` /
`encoding/pem`, external collaborators of `generateCredentials`) -/

/-- Standard base64 alphabet, index to character byte. -/
def b64Char (n : Nat) : Nat :=
  if n < 26 then 65 + n
  else if n < 52 then 97 + (n - 26)
  else if n < 62 then 48 + (n - 52)
  else if n = 62 then 43
  else 47

/-- Base64 encode a byte list (with `=` padding, no line wrapping). -/
def base64Encode : List Nat → List Nat
  | [] => []
  | [a] => [b64Char (a / 4), b64Char (a % 4 * 16), 61, 61]
  | [a, b] => [b64Char (a / 4), b64Char (a % 4 * 16 + b / 16), b64Char (b % 16 * 4), 61]
  | a :: b :: c :: rest =>
    b64Char (a / 4) :: b64Char (a % 4 * 16 + b / 16) ::
      b64Char (b % 16 * 4 + c / 64) :: b64Char (c % 64) :: base64Encode rest

/-- Value of one base64 character byte. -/
def b64Val (c : Nat) : Option Nat :=
  if 65 ≤ c ∧ c ≤ 90 then some (c - 65)
  else if 97 ≤ c ∧ c ≤ 122 then some (c - 97 + 26)
  else if 48 ≤ c ∧ c ≤ 57 then some (c - 48 + 52)
  else if c = 43 then some 62
  else if c = 47 then some 63
  else none

/-- Base64 decode (strict four-character quanta with optional final
padding). -/
def base64Decode : List Nat → Option (List Nat)
  | [] => some []
  | [a, b, 61, 61] =>
    match b64Val a, b64Val b with
    | some va, some vb => some [va * 4 + vb / 16]
    | _, _ => none
  | [a, b, c, 61] =>
    match b64Val a, b64Val b, b64Val c with
    | some va, some vb, some vc =>
      some [va * 4 + vb / 16, vb % 16 * 16 + vc / 4]
    | _, _, _ => none
  | a :: b :: c :: d :: rest =>
    match b64Val a, b64Val b, b64Val c, b64Val d, base64Decode rest with
    | some va, some vb, some vc, some vd, some tail =>
      some ((va * 4 + vb / 16) :: (vb % 16 * 16 + vc / 4) :: (vc % 4 * 64 + vd) :: tail)
    | _, _, _, _, _ => none
  | _ => none

/-- One decoded PEM block: its type line and payload bytes. -/
structure PemBlock where
  blockType : List Nat
  bytes : List Nat
deriving DecidableEq, Repr

/-- Model of Go `pem.EncodeToMemory` for a single block (payload on one
line). -/
def pemEncode (ty : String) (data : List Nat) : List Nat :=
  strBytes "-----BEGIN " ++ strBytes ty ++ strBytes "-----" ++ [10] ++
    base64Encode data ++ [10] ++
    strBytes "-----END " ++ strBytes ty ++ strBytes "-----" ++ [10]

/-- Split a byte list into lines at the newline byte. -/
def splitNL : List Nat → List (List Nat)
  | [] => [[]]
  | b :: rest =>
    if b = 10 then [] :: splitNL rest
    else
      match splitNL rest with
      | [] => [[b]]
      | p :: ps => (b :: p) :: ps

/-- Recognize a `-----BEGIN <type>-----` line; returns the type bytes. -/
def beginLineType (l : List Nat) : Option (List Nat) :=
  let pre := strBytes "-----BEGIN "
  let post := strBytes "-----"
  if l.take pre.length = pre ∧ pre.length + post.length ≤ l.length ∧
      l.drop (l.length - post.length) = post then
    some ((l.take (l.length - post.length)).drop pre.length)
  else none

/-- Recognize a `-----END ...` line. -/
def isEndLine (l : List Nat) : Bool :=
  let pre := strBytes "-----END "
  l.take pre.length == pre

/-- Collect base64 body lines until the END line, then decode them. -/
def pemBody (acc : List (List Nat)) : List (List Nat) → Option (List Nat)
  | [] => none
  | l :: rest =>
    if isEndLine l then base64Decode acc.reverse.flatten
    else pemBody (l :: acc) rest

/-- Find the first BEGIN line and decode the block that follows. -/
def pemFrom : List (List Nat) → Option PemBlock
  | [] => none
  | l :: rest =>
    match beginLineType l with
    | some ty =>
      match pemBody [] rest with
      | some data => some ⟨ty, data⟩
      | none => none
    | none => pemFrom rest

/-- Model of Go `pem.Decode`: the first PEM block of the input, or `none`
when the input holds no well-formed block (the Go function returns a nil
block pointer in that case). -/
def pemDecode (input : List Nat) : Option PemBlock :=
  pemFrom (splitNL input)

/-! ## Credential issuance (`generateCredentials`) -/

/-- Model of `proto.WindowsDesktopCertRequest`: the PEM CSR bytes, the
CRL distribution-point endpoint, and the TTL (in seconds; the source
passes `5 * time.Minute`). -/
structure WindowsDesktopCertRequest where
  csr : List Nat
  crlEndpoint : String
  ttlSeconds : Nat
deriving DecidableEq, Repr

/-- Outcomes of the external collaborators of `generateCredentials`:
RSA key generation (the payload stands for the generated key material),
CSR creation (`x509.CreateCertificateRequest`, a function of the subject
common name and the two extra extensions), the cluster-name lookup done
inside `crlDN`, and the authority call `GenerateWindowsDesktopCert`
(returning the response certificate bytes). -/
structure CredEnv where
  rsaKey : Except String (List Nat)
  createCSR : String → PkixExtension → PkixExtension → Except String (List Nat)
  clusterName : Except String String
  generateWindowsDesktopCert :
    WindowsDesktopCertRequest → Except String (List Nat)

/-- Model of `x509.MarshalPKCS1PrivateKey`: an injective serialization of
the key material, taken as the identity on the abstract key bytes. -/
def marshalPKCS1PrivateKey (key : List Nat) : List Nat := key

/-- Result of `generateCredentials`: the certificate and key bytes, an
error, or an abnormal abort (the nil-pointer dereference on
`certBlock.Bytes` when `pem.Decode` returns nil). -/
inductive CredResult where
  | ok (certDER keyDER : List Nat)
  | err (e : String)
  | panicked
deriving DecidableEq, Repr

/-- The fixed CRL distribution-point endpoint format string of the
source, applied to an entry DN. -/
def crlEndpointOf (dn : String) : String :=
  "ldap:///" ++ dn ++ "?certificateRevocationList?base?objectClass=cRLDistributionPoint"

/-- `generateCredentials` from the source: generate a key, build the SAN
extension, create and PEM-encode the CSR, compute the CRL DN for the
requested domain, submit the request with a 5-minute TTL, and PEM-decode
the returned certificate. Each failure returns immediately; a non-PEM
success response aborts abnormally. -/
def generateCredentials (env : CredEnv) (username domain : String) :
    CredResult :=
  match env.rsaKey with
  | .error e => .err e
  | .ok key =>
    let keyDER := marshalPKCS1PrivateKey key
    let san := subjectAltNameExtension (strBytes username) (strBytes domain)
    match env.createCSR username extKeyUsageExtension san with
    | .error e => .err e
    | .ok csrBytes =>
      let csrPEM := pemEncode "CERTIFICATE REQUEST" csrBytes
      match env.clusterName with
      | .error e => .err e
      | .ok cn =>
        let dn := (crlDN cn domain).1
        match env.generateWindowsDesktopCert
            ⟨csrPEM, crlEndpointOf dn, 300⟩ with
        | .error e => .err e
        | .ok respCert =>
          match pemDecode respCert with
          | none => .panicked
          | some blk => .ok blk.bytes keyDER

/-- A collaborator environment in which every step succeeds and the
authority answers with a PEM-encoded certificate. -/
def credEnvOk : CredEnv :=
  { rsaKey := .ok [1, 2, 3]
    createCSR := fun _ _ _ => .ok [9, 9]
    clusterName := .ok "mycluster"
    generateWindowsDesktopCert := fun _ => .ok (pemEncode "CERTIFICATE" [3, 4, 5]) }

/-- A collaborator environment in which every step succeeds but the
authority answers with bytes that are not valid PEM. -/
def credEnvNonPEM : CredEnv :=
  { rsaKey := .ok [1, 2, 3]
    createCSR := fun _ _ _ => .ok [9, 9]
    clusterName := .ok "mycluster"
    generateWindowsDesktopCert := fun _ => .ok [0] }

/-! ## Heartbeat descriptor generators and static-host naming -/

/-- `apidefaults.ServerAnnounceTTL` (10 minutes), in seconds. -/
def serverAnnounceTTL : Nat := 600

/-- A registered Windows desktop, as read back from the access point. -/
structure WindowsDesktopEntry where
  name : String
  addr : String
  domain : String
deriving DecidableEq, Repr

/-- An announced resource descriptor (service or desktop shape): its
name, address and stored expiry time. Time is in seconds. -/
structure HeartbeatResource where
  name : String
  addr : String
  expiry : Nat
deriving DecidableEq, Repr

/-- `getServiceHeartbeatInfo` from the source: build the service
descriptor and stamp its expiry with now (UTC) plus the announce TTL.
The constructor validation (`types.NewWindowsDesktopServiceV3` requires a
name) is modelled by the emptiness check. -/
def getServiceHeartbeatInfo (hostUUID publicAddr : String) (now : Nat) :
    Except String HeartbeatResource :=
  if hostUUID = "" then .error "missing name"
  else .ok ⟨hostUUID, publicAddr, now + serverAnnounceTTL⟩

/-- `nameForStaticHost` from the source: scan the current snapshot for a
desktop with the same address and reuse its name; otherwise mint a fresh
UUID. The snapshot read outcome and the random draw (`uuid.New`) are
passed in by the caller; `mkUUID` below is the concrete model of the
draw. -/
def nameForStaticHost (desktops : Except String (List WindowsDesktopEntry))
    (addr : String) (freshId : String) : Except String String :=
  match desktops with
  | .error e => .error e
  | .ok ds =>
    match ds.find? (fun d => d.addr == addr) with
    | some d => .ok d.name
    | none => .ok freshId

/-- `getHostHeartbeatInfo` from the source (the generator closure bound
to one static host address): resolve the name, build the desktop
descriptor, and stamp its expiry with now (UTC) plus the announce TTL. -/
def getHostHeartbeatInfo (desktops : Except String (List WindowsDesktopEntry))
    (addr : String) (freshId : String) (now : Nat) :
    Except String HeartbeatResource :=
  match nameForStaticHost desktops addr freshId with
  | .error e => .error e
  | .ok name =>
    if name = "" then .error "missing name"
    else .ok ⟨name, addr, now + serverAnnounceTTL⟩

/-! ## UUID generation (model of `uuid.New`, an external collaborator) -/

/-- Lowercase hex digit character of `k` (for `k < 16`). -/
def hexDigit (k : Nat) : Char :=
  if k < 10 then Char.ofNat (48 + k) else Char.ofNat (87 + k)

/-- `len` hex digit characters of `n`, least significant first. -/
def natToHexLE : Nat → Nat → List Char
  | 0, _ => []
  | len + 1, n => hexDigit (n % 16) :: natToHexLE len (n / 16)

/-- Model of `uuid.New().String()`: a version-4 shaped UUID string whose
30 free hex digits are drawn from the 120-bit value `n` (the randomness
supply). Distinct draws give distinct strings. -/
def mkUUIDChars (n : Nat) : List Char :=
  natToHexLE 8 n ++ '-' :: natToHexLE 4 (n / 16 ^ 8) ++
    '-' :: '4' :: natToHexLE 3 (n / 16 ^ 12) ++
    '-' :: '8' :: natToHexLE 3 (n / 16 ^ 15) ++
    '-' :: natToHexLE 12 (n / 16 ^ 18)

/-- The UUID string of draw `n`. -/
def mkUUID (n : Nat) : String := String.mk (mkUUIDChars n)

/-- Is `c` a lowercase hex digit character. -/
def isHexChar (c : Char) : Bool :=
  ('0' ≤ c && c ≤ '9') || ('a' ≤ c && c ≤ 'f')

/-- Numeric value of a lowercase hex digit character. -/
def hexVal (c : Char) : Nat :=
  if c ≤ '9' then c.toNat - 48 else c.toNat - 87

/-- Value of a little-endian hex digit character list. -/
def hexLEToNat : List Char → Nat
  | [] => 0
  | c :: cs => hexVal c + 16 * hexLEToNat cs

/-- Split a character list at the dash character. -/
def splitDash : List Char → List (List Char)
  | [] => [[]]
  | c :: rest =>
    if c = '-' then [] :: splitDash rest
    else
      match splitDash rest with
      | [] => [[c]]
      | p :: ps => (c :: p) :: ps

/-- Syntactic UUID validity: five dash-separated groups of hex digits of
lengths 8, 4, 4, 4 and 12. -/
def isValidUUID (s : String) : Bool :=
  match splitDash s.data with
  | [a, b, c, d, e] =>
    a.length == 8 && b.length == 4 && c.length == 4 && d.length == 4 &&
      e.length == 12 && (a ++ b ++ c ++ d ++ e).all isHexChar
  | _ => false

/-! ## Shutdown and cancellation-context wiring (`Close`, `Serve`,
`handleConnection` context flow) -/

/-- A cancellation context: the root carries the cancel flag of its
scope; `context.WithValue`-style derivation (as done by
`WrapContextWithUser`) adds no cancel scope of its own. -/
inductive Ctx where
  | root (cancelled : Bool)
  | withValue (parent : Ctx)

/-- Whether a context observes cancellation. -/
def Ctx.isCancelled : Ctx → Bool
  | .root c => c
  | .withValue p => p.isCancelled

/-- The service state relevant to shutdown: whether the close function of
`closeCtx` has been invoked. -/
structure ServiceState where
  closeCtxCancelled : Bool

/-- `Close` from the source: invoke the stored cancel function. -/
def closeService (_ : ServiceState) : ServiceState := ⟨true⟩

/-- The shared `closeCtx` of the service as a context value. -/
def closeCtxOf (s : ServiceState) : Ctx := .root s.closeCtxCancelled

/-- `auth.Middleware.WrapContextWithUser`: derives the per-connection
context from `closeCtx` by attaching the verified identity (a
value-derivation, not a new cancel scope). -/
def wrapContextWithUser (c : Ctx) : Ctx := .withValue c

/-- The context under which `connectRDP` (and hence the bridged RDP
session) runs, as wired in `handleConnection`. -/
def connectRDPCtx (s : ServiceState) : Ctx :=
  wrapContextWithUser (closeCtxOf s)

/-- The `Serve` accept loop: it keeps accepting exactly while `closeCtx`
is not cancelled (the select at the top of the loop). -/
def serveAccepting (s : ServiceState) : Bool := !s.closeCtxCancelled

/-! ## Lemmas -/

theorem foldl_dc (l : List String) (acc : String) :
    l.foldl (fun a dc => a ++ ",DC=" ++ dc) acc =
      acc ++ l.foldr (fun dc r => ",DC=" ++ dc ++ r) "" := by
  induction l generalizing acc with
  | nil => simp
  | cons x xs ih =>
    rw [List.foldl_cons, ih, List.foldr_cons]
    simp [String.append_assoc]

theorem ofLE_leDigits (fuel n : Nat) : ofLE256 (leDigits256 fuel n) = n := by
  induction fuel generalizing n with
  | zero => simp [leDigits256, ofLE256]
  | succ f ih =>
    by_cases h : n < 256
    · simp [leDigits256, h, ofLE256]
    · simp only [leDigits256, if_neg h, ofLE256, ih]
      omega

theorem ofBE_append_single (l : List Nat) (d : Nat) :
    ofBE256 (l ++ [d]) = 256 * ofBE256 l + d := by
  simp [ofBE256, List.foldl_append]

theorem ofBE_reverse (l : List Nat) : ofBE256 l.reverse = ofLE256 l := by
  induction l with
  | nil => rfl
  | cons d ds ih =>
    rw [List.reverse_cons, ofBE_append_single, ih]
    simp [ofLE256]
    omega

theorem decodeLen_derLen (n : Nat) (rest : List Nat) :
    decodeLen (derLen n ++ rest) = some (n, rest) := by
  by_cases h : n < 128
  · simp [derLen, h, decodeLen]
  · simp only [derLen, if_neg h, List.cons_append, decodeLen]
    have hb : ¬(128 + ((leDigits256 n n).reverse).length < 128) := by omega
    rw [if_neg hb]
    have hk : 128 + ((leDigits256 n n).reverse).length - 128 =
        ((leDigits256 n n).reverse).length := by omega
    rw [hk]
    have hlen : ¬(((leDigits256 n n).reverse ++ rest).length <
        ((leDigits256 n n).reverse).length) := by
      simp [List.length_append]
    rw [if_neg hlen]
    rw [List.take_left, List.drop_left, ofBE_reverse, ofLE_leDigits]

theorem decodeTLV_mk (t : Nat) (c rest : List Nat) :
    decodeTLV t (derTLV t c ++ rest) = some (c, rest) := by
  simp only [derTLV, List.cons_append, decodeTLV, if_pos rfl, List.append_assoc,
    decodeLen_derLen]
  have hlen : c.length ≤ (c ++ rest).length := by simp [List.length_append]
  rw [if_pos hlen, List.take_left, List.drop_left]
  simp

theorem decodeTLV_mk_nil (t : Nat) (c : List Nat) :
    decodeTLV t (derTLV t c) = some (c, []) := by
  have h := decodeTLV_mk t c []
  simpa using h

theorem getCount_setCount_self (l : LimiterCounts) (ip : String) (n : Nat) :
    getCount (setCount l ip n) ip = n := by
  induction l with
  | nil => simp [setCount, getCount]
  | cons p rest ih =>
    obtain ⟨k, v⟩ := p
    by_cases h : k == ip
    · simp [setCount, h, getCount]
    · simpa [setCount, h, getCount] using ih

theorem getCount_setCount_ne (l : LimiterCounts) (ip ip2 : String) (n : Nat)
    (h : ip2 ≠ ip) : getCount (setCount l ip n) ip2 = getCount l ip2 := by
  induction l with
  | nil =>
    have hne : (ip == ip2) = false := by
      simpa using fun hc => h hc.symm
    simp [setCount, getCount, hne]
  | cons p rest ih =>
    obtain ⟨k, v⟩ := p
    by_cases hk : k == ip
    · have hkip : k = ip := by simpa using hk
      subst hkip
      have hne : ¬(k == ip2) := by simpa using fun hc => h hc.symm
      simp [setCount, getCount, hne]
    · by_cases hk2 : k == ip2
      · simp [setCount, hk, getCount, hk2]
      · simpa [setCount, hk, getCount, hk2] using ih

theorem dirHas_append (d1 d2 : Dir) (dn : String) :
    dirHas (d1 ++ d2) dn = (dirHas d1 dn || dirHas d2 dn) := by
  simp [dirHas]

theorem entriesAt_append (d1 d2 : Dir) (dn : String) :
    entriesAt (d1 ++ d2) dn = entriesAt d1 dn ++ entriesAt d2 dn := by
  simp [entriesAt]

theorem entriesAt_nil_of_not_has (d : Dir) (dn : String)
    (h : dirHas d dn = false) : entriesAt d dn = [] := by
  induction d with
  | nil => rfl
  | cons e rest ih =>
    simp only [dirHas, List.any_cons, Bool.or_eq_false_iff] at h
    simp only [entriesAt, List.filter_cons, h.1]
    exact ih (by simp [dirHas, h.2])

theorem entriesAt_map_update (d : Dir) (dn : String)
    (g : List (String × List String) → List (String × List String)) :
    entriesAt (d.map fun e => if e.1 == dn then (e.1, g e.2) else e) dn =
      (entriesAt d dn).map (fun e => (e.1, g e.2)) := by
  induction d with
  | nil => rfl
  | cons e rest ih =>
    simp only [List.map_cons]
    cases he : (e.1 == dn) <;>
    · simp [entriesAt, he] at ih ⊢
      simp [ih]

theorem updateCRLDir_eq (d : Dir) (cn dom crl : String) :
    updateCRLDir d cn dom crl =
      addCRLEntry ldapDirClient
        (if dirHas d (crlDN cn dom).2 then d
         else d ++ [((crlDN cn dom).2, [("objectClass", ["container"])])])
        (crlDN cn dom).1 crl := by
  by_cases hp : dirHas d (crlDN cn dom).2 <;>
    simp [updateCRLDir, updateCRL, ldapDirClient, dirAdd, hp]

theorem addCRLEntry_dir_absent (st : Dir) (dn crl : String)
    (h : dirHas st dn = false) :
    addCRLEntry ldapDirClient st dn crl =
      .ok (st ++ [(dn, [("objectClass", ["cRLDistributionPoint"]),
        ("certificateRevocationList", [crl])])]) := by
  simp [addCRLEntry, ldapDirClient, dirAdd, h]

theorem addCRLEntry_dir_present (st : Dir) (dn crl : String)
    (h : dirHas st dn = true) :
    addCRLEntry ldapDirClient st dn crl =
      .ok (st.map fun e =>
        if e.1 == dn then
          (e.1, replaceAttr e.2 "certificateRevocationList" [crl])
        else e) := by
  simp [addCRLEntry, ldapDirClient, dirAdd, h, dirModify]

theorem getServiceHeartbeatInfo_expiry (h p : String) (now : Nat)
    (r : HeartbeatResource) (hr : getServiceHeartbeatInfo h p now = .ok r) :
    r.expiry = now + serverAnnounceTTL := by
  by_cases hu : h = ""
  · simp [getServiceHeartbeatInfo, hu] at hr
  · simp [getServiceHeartbeatInfo, hu] at hr
    rw [← hr]

theorem getHostHeartbeatInfo_expiry
    (desktops : Except String (List WindowsDesktopEntry))
    (addr freshId : String) (now : Nat) (r : HeartbeatResource)
    (hr : getHostHeartbeatInfo desktops addr freshId now = .ok r) :
    r.expiry = now + serverAnnounceTTL := by
  rcases hn : nameForStaticHost desktops addr freshId with e | name
  · simp [getHostHeartbeatInfo, hn] at hr
  · by_cases hu : name = ""
    · simp [getHostHeartbeatInfo, hn, hu] at hr
    · simp [getHostHeartbeatInfo, hn, hu] at hr
      rw [← hr]

theorem hexDigit_spec :
    ∀ k, k < 16 → isHexChar (hexDigit k) = true ∧ hexDigit k ≠ '-' ∧
      hexVal (hexDigit k) = k := by
  decide

theorem natToHexLE_length (len n : Nat) : (natToHexLE len n).length = len := by
  induction len generalizing n with
  | zero => rfl
  | succ l ih => simp [natToHexLE, ih]

theorem natToHexLE_nodash (len n : Nat) :
    ∀ c ∈ natToHexLE len n, c ≠ '-' := by
  induction len generalizing n with
  | zero => simp [natToHexLE]
  | succ l ih =>
    intro c hc
    simp only [natToHexLE, List.mem_cons] at hc
    rcases hc with rfl | hc
    · exact (hexDigit_spec _ (Nat.mod_lt _ (by norm_num))).2.1
    · exact ih _ c hc

theorem natToHexLE_all_hex (len n : Nat) :
    (natToHexLE len n).all isHexChar = true := by
  induction len generalizing n with
  | zero => rfl
  | succ l ih =>
    simp [natToHexLE, ih, (hexDigit_spec _ (Nat.mod_lt _ (by norm_num))).1]

theorem hexLE_natToHexLE (len n : Nat) :
    hexLEToNat (natToHexLE len n) = n % 16 ^ len := by
  induction len generalizing n with
  | zero => simp [natToHexLE, hexLEToNat, Nat.mod_one]
  | succ l ih =>
    simp only [natToHexLE, hexLEToNat, ih,
      (hexDigit_spec _ (Nat.mod_lt _ (by norm_num))).2.2]
    rw [show (16 : Nat) ^ (l + 1) = 16 * 16 ^ l by ring]
    rw [Nat.mod_mul]

theorem splitDash_append (xs rest : List Char) (h : ∀ c ∈ xs, c ≠ '-') :
    splitDash (xs ++ '-' :: rest) = xs :: splitDash rest := by
  induction xs with
  | nil => simp [splitDash]
  | cons c cs ih =>
    have hc : ¬(c = '-') := h c (List.mem_cons_self c cs)
    rw [List.cons_append]
    simp only [splitDash, if_neg hc]
    rw [ih (fun x hx => h x (List.mem_cons_of_mem c hx))]

theorem splitDash_nodash (xs : List Char) (h : ∀ c ∈ xs, c ≠ '-') :
    splitDash xs = [xs] := by
  induction xs with
  | nil => rfl
  | cons c cs ih =>
    have hc : ¬(c = '-') := h c (List.mem_cons_self c cs)
    simp only [splitDash, if_neg hc]
    rw [ih (fun x hx => h x (List.mem_cons_of_mem c hx))]

theorem splitDash_mkUUID (n : Nat) :
    splitDash (mkUUIDChars n) =
      [natToHexLE 8 n, natToHexLE 4 (n / 16 ^ 8),
       '4' :: natToHexLE 3 (n / 16 ^ 12), '8' :: natToHexLE 3 (n / 16 ^ 15),
       natToHexLE 12 (n / 16 ^ 18)] := by
  have h3 : ∀ c ∈ '4' :: natToHexLE 3 (n / 16 ^ 12), c ≠ '-' := by
    intro c hc
    rcases List.mem_cons.mp hc with rfl | hc2
    · decide
    · exact natToHexLE_nodash 3 _ c hc2
  have h4 : ∀ c ∈ '8' :: natToHexLE 3 (n / 16 ^ 15), c ≠ '-' := by
    intro c hc
    rcases List.mem_cons.mp hc with rfl | hc2
    · decide
    · exact natToHexLE_nodash 3 _ c hc2
  show splitDash (natToHexLE 8 n ++ '-' :: (natToHexLE 4 (n / 16 ^ 8) ++ '-' ::
    (('4' :: natToHexLE 3 (n / 16 ^ 12)) ++ '-' ::
      (('8' :: natToHexLE 3 (n / 16 ^ 15)) ++ '-' ::
        natToHexLE 12 (n / 16 ^ 18))))) = _
  rw [splitDash_append _ _ (natToHexLE_nodash 8 n),
    splitDash_append _ _ (natToHexLE_nodash 4 _),
    splitDash_append _ _ h3, splitDash_append _ _ h4,
    splitDash_nodash _ (natToHexLE_nodash 12 _)]

theorem isValidUUID_mkUUID (n : Nat) : isValidUUID (mkUUID n) = true := by
  have h4 : isHexChar '4' = true := by decide
  have h8 : isHexChar '8' = true := by decide
  simp only [isValidUUID, mkUUID]
  rw [splitDash_mkUUID n]
  simp [natToHexLE_length, natToHexLE_all_hex, h4, h8]

theorem mkUUID_injOn (n1 n2 : Nat) (h1 : n1 < 16 ^ 30) (h2 : n2 < 16 ^ 30)
    (hne : n1 ≠ n2) : mkUUID n1 ≠ mkUUID n2 := by
  intro heq
  apply hne
  have hdata : mkUUIDChars n1 = mkUUIDChars n2 := congrArg String.data heq
  have hsp : splitDash (mkUUIDChars n1) = splitDash (mkUUIDChars n2) := by
    rw [hdata]
  rw [splitDash_mkUUID, splitDash_mkUUID] at hsp
  simp only [List.cons.injEq, and_true, true_and] at hsp
  obtain ⟨ha, hb, hc, hd, he⟩ := hsp
  have e1 := congrArg hexLEToNat ha
  have e2 := congrArg hexLEToNat hb
  have e3 := congrArg hexLEToNat hc
  have e4 := congrArg hexLEToNat hd
  have e5 := congrArg hexLEToNat he
  rw [hexLE_natToHexLE, hexLE_natToHexLE] at e1 e2 e3 e4 e5
  norm_num at e1 e2 e3 e4 e5 h1 h2
  omega

/-! ## Claims -/

/-- C3: distinguished-name construction is a pure function of cluster
name and domain: the parent DN is the fixed container path followed by
one `,DC=<component>` per dot-separated domain component in order, the
entry DN prepends `CN=<clusterName>,`, and for cluster `mycluster` and
domain `example.com` the entry DN is the expected literal. -/
theorem crlDN_matches_spec :
    (∀ cn dom : String, crlDN cn dom = (crlDNSpec cn dom, parentDNSpec dom)) ∧
    (crlDN "mycluster" "example.com").1 =
      "CN=mycluster,CN=Teleport,CN=CDP,CN=Public Key Services,CN=Services,CN=Configuration,DC=example,DC=com" := by
  constructor
  · intro cn dom
    simp only [crlDN, crlDNSpec, parentDNSpec]
    rw [foldl_dc]
  · decide

/-- C4: the Extended Key Usage extension has OID 2.5.29.37 and its value
is the DER encoding of a sequence of exactly two object identifiers,
Client Authentication first, then Smartcard Logon (checked by the
explicit byte sequence and by the independent DER decoder). -/
theorem extKeyUsageExtension_spec :
    extKeyUsageExtension.oid = [2, 5, 29, 37] ∧
    extKeyUsageExtension.value =
      [48, 22, 6, 8, 43, 6, 1, 5, 5, 7, 3, 2,
       6, 10, 43, 6, 1, 4, 1, 130, 55, 20, 2, 2] ∧
    decodeOIDSequence extKeyUsageExtension.value =
      some [clientAuthOID, smartcardLogonOID] := by
  refine ⟨rfl, by decide, by decide⟩

/-- C5: for every principal and domain (as byte strings), the Subject
Alternative Name extension has OID 2.5.29.17 and its value decodes to
exactly one implicitly tagged otherName whose object identifier is the
UPN OID and whose value is the UTF-8 string `<principal>@<domain>`
(byte 64 is the at sign). -/
theorem subjectAltNameExtension_spec (user domain : List Nat) :
    (subjectAltNameExtension user domain).oid = [2, 5, 29, 17] ∧
    decodeSAN (subjectAltNameExtension user domain).value =
      some (upnOID, user ++ [64] ++ domain) := by
  refine ⟨rfl, ?_⟩
  have harcs : decodeOIDArcs (oidContent upnOID) = some upnOID := by decide
  simp only [subjectAltNameExtension, sanValueBytes, decodeSAN, encodeOIDDER,
    decodeTLV_mk_nil, decodeTLV_mk, harcs]

/-- C1: per-IP connection limiting is strictly balanced. A connection
from an IP already holding the configured capacity in slots is rejected
with the limiter state unchanged (no slot acquired); and on every exit
path of `handleConnection` — parse failure, rejection, TLS-assertion
failure, authentication failure, lookup failure, bridge error, or clean
completion — the final limiter count of every IP equals its
pre-connection value. -/
theorem handleConnection_limiter_balance :
    (∀ (env : ConnEnv) (lim : LimiterCounts) (maxConnections : Nat) (ip : String),
        env.remoteIP = some ip → maxConnections ≤ getCount lim ip →
        handleConnection env maxConnections lim = (lim, .limitRejected)) ∧
    (∀ (env : ConnEnv) (maxConnections : Nat) (lim : LimiterCounts) (ip2 : String),
        getCount (handleConnection env maxConnections lim).1 ip2 =
          getCount lim ip2) := by
  constructor
  · intro env lim maxConnections ip hip h
    simp [handleConnection, hip, acquireConnection, h]
  · intro env maxConnections lim ip2
    match henv : env.remoteIP with
    | none => simp [handleConnection, henv]
    | some ip =>
      by_cases h : maxConnections ≤ getCount lim ip
      · simp [handleConnection, henv, acquireConnection, h]
      · simp only [handleConnection, henv, acquireConnection, if_neg h,
          releaseConnection]
        by_cases hip : ip2 = ip
        · subst hip
          rw [getCount_setCount_self, getCount_setCount_self]
          omega
        · rw [getCount_setCount_ne _ _ _ _ hip, getCount_setCount_ne _ _ _ _ hip]

/-- Witness for C1: with capacity 2 and an IP already holding 2 slots the
connection is rejected with the limiter unchanged, and a successful run
from a count of 1 returns the count to 1. -/
theorem handleConnection_limiter_balance_witness :
    ConnEnv.remoteIP ⟨some "1.2.3.4", true, true, true, true⟩ = some "1.2.3.4" ∧
    2 ≤ getCount [("1.2.3.4", 2)] "1.2.3.4" ∧
    handleConnection ⟨some "1.2.3.4", true, true, true, true⟩ 2
      [("1.2.3.4", 2)] = ([("1.2.3.4", 2)], .limitRejected) ∧
    getCount (handleConnection ⟨some "1.2.3.4", true, true, true, true⟩ 2
      [("1.2.3.4", 1)]).1 "1.2.3.4" = getCount [("1.2.3.4", 1)] "1.2.3.4" :=
  ⟨rfl, by decide,
    handleConnection_limiter_balance.1 _ _ _ _ rfl (by decide),
    handleConnection_limiter_balance.2 _ _ _ _⟩

/-- C2: revocation publishing is an idempotent upsert. The first three
parts show error propagation over an arbitrary LDAP client: a
parent-container add error other than "already exists" is returned, an
entry add error other than "already exists" is returned, and a modify
error after an "already exists" add is returned. The last part shows, on
the concrete directory, that a first publish succeeds and leaves exactly
one entry at the target DN holding the payload, that republishing the
unchanged payload succeeds and leaves that one entry with the same bytes,
and that publishing a changed payload succeeds and replaces the stored
bytes. -/
theorem updateCRL_idempotent_upsert :
    (∀ (σ : Type) (c : LdapClient σ) (st : σ) (env : CRLUpdateEnv)
        (dom crl cn : String) (e : LdapErr),
        env.generateCRL = .ok crl → env.clusterName = .ok cn →
        env.connectResult = .ok () →
        c.add st (crlDN cn dom).2 [("objectClass", ["container"])] = .error e →
        e ≠ .alreadyExists →
        updateCRL env c st dom = .error e) ∧
    (∀ (σ : Type) (c : LdapClient σ) (st : σ) (dn crl : String) (e : LdapErr),
        c.add st dn [("objectClass", ["cRLDistributionPoint"]),
          ("certificateRevocationList", [crl])] = .error e →
        e ≠ .alreadyExists →
        addCRLEntry c st dn crl = .error e) ∧
    (∀ (σ : Type) (c : LdapClient σ) (st : σ) (dn crl : String) (e : LdapErr),
        c.add st dn [("objectClass", ["cRLDistributionPoint"]),
          ("certificateRevocationList", [crl])] = .error .alreadyExists →
        c.modify st dn [("certificateRevocationList", [crl])] = .error e →
        addCRLEntry c st dn crl = .error e) ∧
    (∀ (d0 : Dir) (cn dom crl crl2 : String),
        dirHas d0 (crlDN cn dom).1 = false →
        (crlDN cn dom).1 ≠ (crlDN cn dom).2 →
        ∃ d1 d2 d3,
          updateCRLDir d0 cn dom crl = .ok d1 ∧
          crlAttrAt d1 (crlDN cn dom).1 = some [crl] ∧
          updateCRLDir d1 cn dom crl = .ok d2 ∧
          crlAttrAt d2 (crlDN cn dom).1 = some [crl] ∧
          updateCRLDir d1 cn dom crl2 = .ok d3 ∧
          crlAttrAt d3 (crlDN cn dom).1 = some [crl2]) := by
  refine ⟨?_, ?_, ?_, ?_⟩
  · intro σ c st env dom crl cn e hcrl hcn hcon hadd hne
    rcases e with _ | code
    · exact absurd rfl hne
    · simp [updateCRL, hcrl, hcn, hcon, hadd]
  · intro σ c st dn crl e hadd hne
    rcases e with _ | code
    · exact absurd rfl hne
    · simp [addCRLEntry, hadd]
  · intro σ c st dn crl e hadd hmod
    simp [addCRLEntry, hadd, hmod]
  · intro d0 cn dom crl crl2 h0 hne
    have hoc : (("objectClass" : String) == "certificateRevocationList") = false := by
      decide
    have hcc : (("certificateRevocationList" : String) ==
        "certificateRevocationList") = true := by decide
    have hPE : (((crlDN cn dom).2 : String) == (crlDN cn dom).1) = false := by
      simp only [beq_eq_false_iff_ne, ne_eq]
      exact fun hc => hne hc.symm
    have hEE : (((crlDN cn dom).1 : String) == (crlDN cn dom).1) = true := by
      simp
    set E := (crlDN cn dom).1 with hE
    set eattrs1 : List (String × List String) :=
      [("objectClass", ["cRLDistributionPoint"]),
       ("certificateRevocationList", [crl])] with heattrs1
    set d0a := (if dirHas d0 (crlDN cn dom).2 then d0
      else d0 ++ [((crlDN cn dom).2, [("objectClass", ["container"])])]) with hd0a
    have hentry0 : dirHas d0a E = false := by
      by_cases hp : dirHas d0 (crlDN cn dom).2
      · rw [hd0a, if_pos hp]
        exact h0
      · rw [hd0a, if_neg hp, dirHas_append, h0]
        simp [dirHas, hPE]
    have hparent0 : dirHas d0a (crlDN cn dom).2 = true := by
      by_cases hp : dirHas d0 (crlDN cn dom).2
      · rw [hd0a, if_pos hp]
        exact hp
      · rw [hd0a, if_neg hp, dirHas_append]
        simp [dirHas]
    have h1 : updateCRLDir d0 cn dom crl = .ok (d0a ++ [(E, eattrs1)]) := by
      rw [updateCRLDir_eq, ← hd0a]
      exact addCRLEntry_dir_absent _ _ _ hentry0
    have hE1 : entriesAt (d0a ++ [(E, eattrs1)]) E = [(E, eattrs1)] := by
      rw [entriesAt_append, entriesAt_nil_of_not_has _ _ hentry0]
      simp [entriesAt, hEE]
    have hattr1 : crlAttrAt (d0a ++ [(E, eattrs1)]) E = some [crl] := by
      simp [crlAttrAt, hE1, attrVals, heattrs1, hoc, hcc]
    have hparent1 : dirHas (d0a ++ [(E, eattrs1)]) (crlDN cn dom).2 = true := by
      simp [dirHas_append, hparent0]
    have hentry1 : dirHas (d0a ++ [(E, eattrs1)]) E = true := by
      simp [dirHas_append, dirHas, hEE]
    have hrepl : ∀ c2 : String,
        replaceAttr eattrs1 "certificateRevocationList" [c2] =
          [("objectClass", ["cRLDistributionPoint"]),
           ("certificateRevocationList", [c2])] := by
      intro c2
      simp [replaceAttr, heattrs1, hoc, hcc]
    have h2 : ∀ c2 : String,
        updateCRLDir (d0a ++ [(E, eattrs1)]) cn dom c2 =
          .ok ((d0a ++ [(E, eattrs1)]).map fun e =>
            if e.1 == E then
              (e.1, replaceAttr e.2 "certificateRevocationList" [c2])
            else e) := by
      intro c2
      rw [updateCRLDir_eq, if_pos hparent1]
      exact addCRLEntry_dir_present _ _ _ hentry1
    have hattr2 : ∀ c2 : String,
        crlAttrAt ((d0a ++ [(E, eattrs1)]).map fun e =>
          if e.1 == E then
            (e.1, replaceAttr e.2 "certificateRevocationList" [c2])
          else e) E = some [c2] := by
      intro c2
      have hm := entriesAt_map_update (d0a ++ [(E, eattrs1)]) E
        (fun as => replaceAttr as "certificateRevocationList" [c2])
      simp only [crlAttrAt, hm, hE1, List.map_cons, List.map_nil]
      simp [attrVals, hrepl c2, hoc, hcc]
    exact ⟨d0a ++ [(E, eattrs1)], _, _, h1, hattr1, h2 crl, hattr2 crl,
      h2 crl2, hattr2 crl2⟩

/-- Witness for C2: all four parts instantiated concretely — a
non-already-exists failure of each directory operation propagates from a
one-shot client, and the concrete idempotence run starting from the empty
directory. -/
theorem updateCRL_idempotent_upsert_witness :
    (∃ r, updateCRL ⟨.ok "crl", .ok "mycluster", .ok ()⟩
      ⟨fun _ _ _ => .error (.other 1), fun _ _ _ => .error (.other 1)⟩
      ([] : Dir) "example.com" = r ∧ r = .error (.other 1)) ∧
    (∃ d1 d2 d3,
      updateCRLDir [] "mycluster" "example.com" "payloadA" = .ok d1 ∧
      crlAttrAt d1 (crlDN "mycluster" "example.com").1 = some ["payloadA"] ∧
      updateCRLDir d1 "mycluster" "example.com" "payloadA" = .ok d2 ∧
      crlAttrAt d2 (crlDN "mycluster" "example.com").1 = some ["payloadA"] ∧
      updateCRLDir d1 "mycluster" "example.com" "payloadB" = .ok d3 ∧
      crlAttrAt d3 (crlDN "mycluster" "example.com").1 = some ["payloadB"]) := by
  constructor
  · refine ⟨_, rfl, ?_⟩
    exact updateCRL_idempotent_upsert.1 Dir
      ⟨fun _ _ _ => .error (.other 1), fun _ _ _ => .error (.other 1)⟩
      [] ⟨.ok "crl", .ok "mycluster", .ok ()⟩ "example.com" "crl" "mycluster"
      (.other 1) rfl rfl rfl rfl (by decide)
  · exact updateCRL_idempotent_upsert.2.2.2 [] "mycluster" "example.com"
      "payloadA" "payloadB" (by decide) (by decide)

/-- C6: every successful credential issuance submits to the remote
authority a request holding the PEM-encoded CSR, the fixed 300-second
(5-minute) TTL, and the CRL distribution-point URI built from the entry
DN of (clusterName, requested domain), and returns the first PEM block's
bytes of the response together with the PKCS#1 key bytes; and every
failure of key generation, CSR creation, cluster-name lookup (the DN
computation), or authority submission is returned immediately. -/
theorem generateCredentials_contract :
    (∀ (env : CredEnv) (u d e : String),
        env.rsaKey = .error e → generateCredentials env u d = .err e) ∧
    (∀ (env : CredEnv) (u d : String) (key : List Nat) (e : String),
        env.rsaKey = .ok key →
        env.createCSR u extKeyUsageExtension
          (subjectAltNameExtension (strBytes u) (strBytes d)) = .error e →
        generateCredentials env u d = .err e) ∧
    (∀ (env : CredEnv) (u d : String) (key csrB : List Nat) (e : String),
        env.rsaKey = .ok key →
        env.createCSR u extKeyUsageExtension
          (subjectAltNameExtension (strBytes u) (strBytes d)) = .ok csrB →
        env.clusterName = .error e →
        generateCredentials env u d = .err e) ∧
    (∀ (env : CredEnv) (u d : String) (key csrB : List Nat) (cn e : String),
        env.rsaKey = .ok key →
        env.createCSR u extKeyUsageExtension
          (subjectAltNameExtension (strBytes u) (strBytes d)) = .ok csrB →
        env.clusterName = .ok cn →
        env.generateWindowsDesktopCert
          ⟨pemEncode "CERTIFICATE REQUEST" csrB,
           "ldap:///" ++ (crlDN cn d).1 ++
             "?certificateRevocationList?base?objectClass=cRLDistributionPoint",
           300⟩ = .error e →
        generateCredentials env u d = .err e) ∧
    (∀ (env : CredEnv) (u d : String) (certDER keyDER : List Nat),
        generateCredentials env u d = .ok certDER keyDER →
        ∃ key csrB cn resp blk,
          env.rsaKey = .ok key ∧
          keyDER = marshalPKCS1PrivateKey key ∧
          env.createCSR u extKeyUsageExtension
            (subjectAltNameExtension (strBytes u) (strBytes d)) = .ok csrB ∧
          env.clusterName = .ok cn ∧
          env.generateWindowsDesktopCert
            ⟨pemEncode "CERTIFICATE REQUEST" csrB,
             "ldap:///" ++ (crlDN cn d).1 ++
               "?certificateRevocationList?base?objectClass=cRLDistributionPoint",
             300⟩ = .ok resp ∧
          pemDecode resp = some blk ∧
          certDER = blk.bytes) := by
  refine ⟨?_, ?_, ?_, ?_, ?_⟩
  · intro env u d e h
    simp [generateCredentials, h]
  · intro env u d key e hk hc
    simp [generateCredentials, hk, hc]
  · intro env u d key csrB e hk hc hcn
    simp [generateCredentials, hk, hc, hcn]
  · intro env u d key csrB cn e hk hc hcn hg
    simp [generateCredentials, crlEndpointOf, hk, hc, hcn] at hg ⊢
    simp [hg]
  · intro env u d certDER keyDER h
    rcases hk : env.rsaKey with e | key
    · simp [generateCredentials, hk] at h
    rcases hc : env.createCSR u extKeyUsageExtension
        (subjectAltNameExtension (strBytes u) (strBytes d)) with e | csrB
    · simp [generateCredentials, hk, hc] at h
    rcases hcn : env.clusterName with e | cn
    · simp [generateCredentials, hk, hc, hcn] at h
    rcases hg : env.generateWindowsDesktopCert
        ⟨pemEncode "CERTIFICATE REQUEST" csrB,
         crlEndpointOf (crlDN cn d).1, 300⟩ with e | resp
    · simp [generateCredentials, crlEndpointOf, hk, hc, hcn] at h
      rw [show ("ldap:///" ++ (crlDN cn d).1 ++
        "?certificateRevocationList?base?objectClass=cRLDistributionPoint") =
          crlEndpointOf (crlDN cn d).1 from rfl, hg] at h
      simp at h
    · rcases hp : pemDecode resp with _ | blk
      · simp [generateCredentials, crlEndpointOf, hk, hc, hcn] at h
        rw [show ("ldap:///" ++ (crlDN cn d).1 ++
          "?certificateRevocationList?base?objectClass=cRLDistributionPoint") =
            crlEndpointOf (crlDN cn d).1 from rfl, hg] at h
        simp [hp] at h
      · simp [generateCredentials, crlEndpointOf, hk, hc, hcn] at h
        rw [show ("ldap:///" ++ (crlDN cn d).1 ++
          "?certificateRevocationList?base?objectClass=cRLDistributionPoint") =
            crlEndpointOf (crlDN cn d).1 from rfl, hg] at h
        simp [hp] at h
        exact ⟨key, csrB, cn, resp, blk, rfl, h.2.symm, rfl, rfl,
          (by exact hg), hp, h.1.symm⟩

/-- Witness for C6: in the all-successful concrete environment the call
returns the PEM block bytes of the authority response and the key bytes,
and the success clause of the contract applies. -/
theorem generateCredentials_contract_witness :
    generateCredentials credEnvOk "alice" "example.com" =
      .ok [3, 4, 5] [1, 2, 3] ∧
    ∃ key csrB cn resp blk,
      credEnvOk.rsaKey = .ok key ∧
      ([1, 2, 3] : List Nat) = marshalPKCS1PrivateKey key ∧
      credEnvOk.createCSR "alice" extKeyUsageExtension
        (subjectAltNameExtension (strBytes "alice")
          (strBytes "example.com")) = .ok csrB ∧
      credEnvOk.clusterName = .ok cn ∧
      credEnvOk.generateWindowsDesktopCert
        ⟨pemEncode "CERTIFICATE REQUEST" csrB,
         "ldap:///" ++ (crlDN cn "example.com").1 ++
           "?certificateRevocationList?base?objectClass=cRLDistributionPoint",
         300⟩ = .ok resp ∧
      pemDecode resp = some blk ∧
      ([3, 4, 5] : List Nat) = blk.bytes := by
  have hrun : generateCredentials credEnvOk "alice" "example.com" =
      .ok [3, 4, 5] [1, 2, 3] := by decide
  exact ⟨hrun, generateCredentials_contract.2.2.2.2 credEnvOk "alice"
    "example.com" [3, 4, 5] [1, 2, 3] hrun⟩

/-- C7: every resource descriptor produced by a heartbeat generator (the
service descriptor and each static-host descriptor) has its expiry equal
to the generation-time clock value plus the announce TTL, and for any two
successful generator runs with an advancing clock the later stored expiry
is strictly greater. -/
theorem heartbeatInfo_expiry :
    (∀ (hostUUID publicAddr : String) (now : Nat) (r : HeartbeatResource),
        getServiceHeartbeatInfo hostUUID publicAddr now = .ok r →
        r.expiry = now + serverAnnounceTTL) ∧
    (∀ (desktops : Except String (List WindowsDesktopEntry))
        (addr freshId : String) (now : Nat) (r : HeartbeatResource),
        getHostHeartbeatInfo desktops addr freshId now = .ok r →
        r.expiry = now + serverAnnounceTTL) ∧
    (∀ (hostUUID publicAddr : String) (t1 t2 : Nat)
        (r1 r2 : HeartbeatResource),
        getServiceHeartbeatInfo hostUUID publicAddr t1 = .ok r1 →
        getServiceHeartbeatInfo hostUUID publicAddr t2 = .ok r2 →
        t1 < t2 → r1.expiry < r2.expiry) ∧
    (∀ (desktops : Except String (List WindowsDesktopEntry))
        (addr freshId : String) (t1 t2 : Nat) (r1 r2 : HeartbeatResource),
        getHostHeartbeatInfo desktops addr freshId t1 = .ok r1 →
        getHostHeartbeatInfo desktops addr freshId t2 = .ok r2 →
        t1 < t2 → r1.expiry < r2.expiry) := by
  refine ⟨getServiceHeartbeatInfo_expiry, getHostHeartbeatInfo_expiry, ?_, ?_⟩
  · intro hostUUID publicAddr t1 t2 r1 r2 h1 h2 hlt
    rw [getServiceHeartbeatInfo_expiry _ _ _ _ h1,
      getServiceHeartbeatInfo_expiry _ _ _ _ h2]
    omega
  · intro desktops addr freshId t1 t2 r1 r2 h1 h2 hlt
    rw [getHostHeartbeatInfo_expiry _ _ _ _ _ h1,
      getHostHeartbeatInfo_expiry _ _ _ _ _ h2]
    omega

/-- Witness for C7: concrete service and host generator runs at times 100
and 200 have expiries 100 + TTL and 200 + TTL, strictly increasing. -/
theorem heartbeatInfo_expiry_witness :
    (∃ r, getServiceHeartbeatInfo "host-1" "svc.example.com:3028" 100 = .ok r ∧
      r.expiry = 100 + serverAnnounceTTL) ∧
    (∃ r, getHostHeartbeatInfo (.ok []) "10.0.0.5:3389" (mkUUID 7) 100 = .ok r ∧
      r.expiry = 100 + serverAnnounceTTL) ∧
    (∃ r1 r2,
      getServiceHeartbeatInfo "host-1" "svc.example.com:3028" 100 = .ok r1 ∧
      getServiceHeartbeatInfo "host-1" "svc.example.com:3028" 200 = .ok r2 ∧
      r1.expiry < r2.expiry) := by
  refine
    ⟨⟨⟨"host-1", "svc.example.com:3028", 100 + serverAnnounceTTL⟩, rfl, ?_⟩,
     ⟨⟨mkUUID 7, "10.0.0.5:3389", 100 + serverAnnounceTTL⟩, by rfl, ?_⟩,
     ⟨⟨"host-1", "svc.example.com:3028", 100 + serverAnnounceTTL⟩,
      ⟨"host-1", "svc.example.com:3028", 200 + serverAnnounceTTL⟩,
      rfl, rfl, ?_⟩⟩
  · exact heartbeatInfo_expiry.1 "host-1" "svc.example.com:3028" 100
      ⟨"host-1", "svc.example.com:3028", 100 + serverAnnounceTTL⟩ rfl
  · exact heartbeatInfo_expiry.2.1 (.ok []) "10.0.0.5:3389" (mkUUID 7) 100
      ⟨mkUUID 7, "10.0.0.5:3389", 100 + serverAnnounceTTL⟩ (by rfl)
  · exact heartbeatInfo_expiry.2.2.1 "host-1" "svc.example.com:3028" 100 200
      ⟨"host-1", "svc.example.com:3028", 100 + serverAnnounceTTL⟩
      ⟨"host-1", "svc.example.com:3028", 200 + serverAnnounceTTL⟩
      rfl rfl (by omega)

/-- C10: `generateCredentials` is total only when the successful
authority response is PEM-encoded. With a non-PEM response the call
aborts abnormally (the nil-block dereference), and with a valid PEM
response the returned certificate bytes are exactly the bytes of the
first PEM block. -/
theorem generateCredentials_pem_precondition :
    generateCredentials credEnvNonPEM "alice" "example.com" = .panicked ∧
    (∀ (env : CredEnv) (u d : String) (key csrB : List Nat) (cn : String)
        (resp : List Nat) (blk : PemBlock),
        env.rsaKey = .ok key →
        env.createCSR u extKeyUsageExtension
          (subjectAltNameExtension (strBytes u) (strBytes d)) = .ok csrB →
        env.clusterName = .ok cn →
        env.generateWindowsDesktopCert
          ⟨pemEncode "CERTIFICATE REQUEST" csrB,
           crlEndpointOf (crlDN cn d).1, 300⟩ = .ok resp →
        pemDecode resp = some blk →
        generateCredentials env u d =
          .ok blk.bytes (marshalPKCS1PrivateKey key)) := by
  constructor
  · decide
  · intro env u d key csrB cn resp blk hk hc hcn hg hp
    simp only [generateCredentials, hk, hc, hcn, hg, hp]

/-- Witness for C10: in the all-successful concrete environment the call
returns the first PEM block bytes of the response. -/
theorem generateCredentials_pem_precondition_witness :
    generateCredentials credEnvOk "bob" "corp.local" =
      .ok [3, 4, 5] (marshalPKCS1PrivateKey [1, 2, 3]) :=
  generateCredentials_pem_precondition.2 credEnvOk "bob" "corp.local"
    [1, 2, 3] [9, 9] "mycluster" (pemEncode "CERTIFICATE" [3, 4, 5])
    ⟨strBytes "CERTIFICATE", [3, 4, 5]⟩ rfl rfl rfl rfl (by decide)

/-- C9 counterexample: the claim asserts that after `close()` in-flight
connection tasks are not forcibly canceled and their bridged sessions run
to their own termination. In the source, `Close` invokes the cancel
function of `closeCtx`, and the context handed to the bridged RDP session
is derived from `closeCtx` by a value wrap, so after a close with a
session in flight that session context observes cancellation — refuting
the claim at the concrete pre-close state. (The `Close` doc comment in
the source states it aborts established connections.) -/
theorem close_cancels_inflight_counterexample :
    ¬ (Ctx.isCancelled (connectRDPCtx (closeService ⟨false⟩)) = false) := by
  decide

/-- C9 amended: after `close()` the accept loop stops accepting new
connections and close does not wait for in-flight tasks, but close
cancels the shared context from which every in-flight session context is
derived, so established bridged sessions are signaled to abort (before
close, the accept loop runs and the session context is uncancelled). -/
theorem close_stops_accepting_and_cancels (s : ServiceState) :
    serveAccepting (closeService s) = false ∧
    Ctx.isCancelled (connectRDPCtx (closeService s)) = true ∧
    serveAccepting ⟨false⟩ = true ∧
    Ctx.isCancelled (connectRDPCtx ⟨false⟩) = false :=
  ⟨rfl, rfl, rfl, rfl⟩

/-- C8: static-host naming is deterministic given a fixed snapshot. A
matched address returns the existing name on every call (independently of
the random draw); an unmatched address returns the freshly drawn UUID,
which is syntactically valid; two draws of distinct 120-bit random values
never collide (so calls for disjoint unmatched addresses return distinct
identifiers); and a snapshot-read error propagates. -/
theorem nameForStaticHost_spec :
    (∀ (ds : List WindowsDesktopEntry) (addr f1 f2 : String)
        (d : WindowsDesktopEntry),
        ds.find? (fun x => x.addr == addr) = some d →
        nameForStaticHost (.ok ds) addr f1 = .ok d.name ∧
        nameForStaticHost (.ok ds) addr f2 = .ok d.name) ∧
    (∀ (ds : List WindowsDesktopEntry) (addr : String) (n : Nat),
        ds.find? (fun x => x.addr == addr) = none →
        nameForStaticHost (.ok ds) addr (mkUUID n) = .ok (mkUUID n) ∧
        isValidUUID (mkUUID n) = true) ∧
    (∀ n1 n2 : Nat, n1 < 16 ^ 30 → n2 < 16 ^ 30 → n1 ≠ n2 →
        mkUUID n1 ≠ mkUUID n2) ∧
    (∀ (e addr freshId : String),
        nameForStaticHost (.error e) addr freshId = .error e) := by
  refine ⟨?_, ?_, mkUUID_injOn, ?_⟩
  · intro ds addr f1 f2 d hfind
    exact ⟨by simp [nameForStaticHost, hfind], by simp [nameForStaticHost, hfind]⟩
  · intro ds addr n hfind
    exact ⟨by simp [nameForStaticHost, hfind], isValidUUID_mkUUID n⟩
  · intro e addr freshId
    rfl

/-- Witness for C8: a matched address reuses the stored name under two
different draws, an unmatched address gets the drawn valid UUID, draws 1
and 2 give distinct identifiers, and an error snapshot propagates. -/
theorem nameForStaticHost_spec_witness :
    (nameForStaticHost
        (.ok [⟨"existing-name", "10.0.0.5:3389", "corp.local"⟩])
        "10.0.0.5:3389" (mkUUID 1) = .ok "existing-name" ∧
      nameForStaticHost
        (.ok [⟨"existing-name", "10.0.0.5:3389", "corp.local"⟩])
        "10.0.0.5:3389" (mkUUID 2) = .ok "existing-name") ∧
    (nameForStaticHost
        (.ok [⟨"existing-name", "10.0.0.5:3389", "corp.local"⟩])
        "10.0.0.6:3389" (mkUUID 1) = .ok (mkUUID 1) ∧
      isValidUUID (mkUUID 1) = true) ∧
    mkUUID 1 ≠ mkUUID 2 ∧
    nameForStaticHost (.error "snapshot read failed") "10.0.0.5:3389"
      (mkUUID 1) = .error "snapshot read failed" :=
  ⟨nameForStaticHost_spec.1 _ "10.0.0.5:3389" (mkUUID 1) (mkUUID 2)
      ⟨"existing-name", "10.0.0.5:3389", "corp.local"⟩ (by decide),
   nameForStaticHost_spec.2.1 _ "10.0.0.6:3389" 1 (by decide),
   nameForStaticHost_spec.2.2.1 1 2 (by norm_num) (by norm_num) (by norm_num),
   nameForStaticHost_spec.2.2.2 "snapshot read failed" "10.0.0.5:3389"
     (mkUUID 1)⟩

end WindowsDesktop
